import Mathlib

/-!
Shallow embedding of the trip-planner backend (`server.js`): the `validate`
input guard, the `POST /api/plan` handler with its credential / generation /
parse branching, and the helpers `safeParseJSON`, `buildMockPlan` and
`enumerateDates`.  Host behaviour that the code leans on (JavaScript `Date`
parsing and arithmetic for ISO `YYYY-MM-DD` strings, `JSON.parse`, object
spread in literals, string truthiness) is embedded explicitly below, and the
claims of the specification are settled as theorems over these definitions.
-/

namespace TripPlanner

/-- Calendar date (year, month, day): the value carried by a JavaScript
`Date` that was successfully parsed from an ISO `YYYY-MM-DD` string. -/
structure Date where
  year : Nat
  month : Nat
  day : Nat
deriving DecidableEq, Repr

/-- Gregorian leap-year test, as the host `Date` implements it. -/
def isLeap (y : Nat) : Bool :=
  y % 4 == 0 && (y % 100 != 0 || y % 400 == 0)

/-- Number of days of month `m` (1–12) in a year whose leap flag is `leap`. -/
def monthLen (leap : Bool) (m : Nat) : Nat :=
  match m with
  | 1 => 31 | 2 => if leap then 29 else 28 | 3 => 31 | 4 => 30
  | 5 => 31 | 6 => 30 | 7 => 31 | 8 => 31
  | 9 => 30 | 10 => 31 | 11 => 30 | 12 => 31
  | _ => 0

/-- Days of the year that fall in months strictly before month `m`. -/
def cumDays (leap : Bool) (m : Nat) : Nat :=
  (match m with
   | 1 => 0 | 2 => 31 | 3 => 59 | 4 => 90 | 5 => 120 | 6 => 151
   | 7 => 181 | 8 => 212 | 9 => 243 | 10 => 273 | 11 => 304 | 12 => 334
   | _ => 365) +
  (if leap && decide (3 ≤ m) then 1 else 0)

/-- Number of leap years `z` with `z < y` (proleptic Gregorian, year 0 leap). -/
def leapCount (y : Nat) : Nat :=
  (y + 3) / 4 - (y + 99) / 100 + (y + 399) / 400

/-- Days in years strictly before year `y`. -/
def daysBeforeYear (y : Nat) : Nat :=
  365 * y + leapCount y

/-- Linear day number of a date: the timestamp (in whole days) that the host
`Date` object carries, used for the `e < s` and `d <= e` comparisons. -/
def toDayNumber (d : Date) : Nat :=
  daysBeforeYear d.year + cumDays (isLeap d.year) d.month + (d.day - 1)

/-- A structurally valid calendar date: month in 1–12 and day within the
month.  `parseISODate` only produces valid dates. -/
def validDate (d : Date) : Prop :=
  1 ≤ d.month ∧ d.month ≤ 12 ∧ 1 ≤ d.day ∧ d.day ≤ monthLen (isLeap d.year) d.month

instance (d : Date) : Decidable (validDate d) := by
  unfold validDate; infer_instance

/-- Civil successor: the date one day later, as the host's
`d.setDate(d.getDate() + 1)` computes it. -/
def nextDay (d : Date) : Date :=
  if d.day < monthLen (isLeap d.year) d.month then ⟨d.year, d.month, d.day + 1⟩
  else if d.month < 12 then ⟨d.year, d.month + 1, 1⟩
  else ⟨d.year + 1, 1, 1⟩

/-- Iterated civil successor: the date `n` days after `d`. -/
def iterDays : Nat → Date → Date
  | 0, d => d
  | n + 1, d => iterDays n (nextDay d)

/-- Decimal digit character of `n % 10`, as produced by `toISOString`. -/
def digitChar (n : Nat) : Char :=
  match n % 10 with
  | 0 => '0' | 1 => '1' | 2 => '2' | 3 => '3' | 4 => '4'
  | 5 => '5' | 6 => '6' | 7 => '7' | 8 => '8' | _ => '9'

/-- Value of a decimal digit character; `none` on any other character.
The table is ordered high to low. -/
def digitVal? (c : Char) : Option Nat :=
  match c with
  | '9' => some 9 | '8' => some 8 | '7' => some 7 | '6' => some 6
  | '5' => some 5 | '4' => some 4 | '3' => some 3 | '2' => some 2
  | '1' => some 1 | '0' => some 0 | _ => none

/-- Two-digit zero-padded rendering, as in `toISOString`. -/
def pad2 (n : Nat) : List Char :=
  [digitChar (n / 10), digitChar n]

/-- Four-digit zero-padded year rendering, as in `toISOString`. -/
def pad4 (n : Nat) : List Char :=
  [digitChar (n / 1000), digitChar (n / 100), digitChar (n / 10), digitChar n]

/-- ISO `YYYY-MM-DD` rendering of a date: the host's
`d.toISOString().slice(0, 10)`. -/
def formatDateISO (d : Date) : String :=
  ⟨pad4 d.year ++ '-' :: (pad2 d.month ++ '-' :: pad2 d.day)⟩

/-- Embedding of `new Date(s)` for the ISO date strings this API traffics
in: strict `YYYY-MM-DD` with in-range month and day; anything else is the
host's `Invalid Date` (`none`, so that `isNaN` is `Option.isNone`). -/
def parseISODate (s : String) : Option Date :=
  match s.data with
  | [y1, y2, y3, y4, '-', m1, m2, '-', d1, d2] =>
    (digitVal? y1).bind fun a =>
    (digitVal? y2).bind fun b =>
    (digitVal? y3).bind fun c =>
    (digitVal? y4).bind fun d =>
    (digitVal? m1).bind fun e =>
    (digitVal? m2).bind fun f =>
    (digitVal? d1).bind fun g =>
    (digitVal? d2).bind fun h =>
    let y := a * 1000 + b * 100 + c * 10 + d
    let m := e * 10 + f
    let dd := g * 10 + h
    if 1 ≤ m ∧ m ≤ 12 ∧ 1 ≤ dd ∧ dd ≤ monthLen (isLeap y) m then
      some ⟨y, m, dd⟩
    else none
  | _ => none

/-- Plan for a single day, as assembled by `buildMockPlan`'s `.map` callback. -/
structure DayPlan where
  date : String
  title : String
  summary : String
  morning : String
  afternoon : String
  evening : String
  foodSuggestions : List String
  tips : List String
deriving DecidableEq, Repr

/-- The argument object passed to `buildMockPlan` at its call sites:
`{ destination, startDate, endDate, travelers, interests, budgetLevel, pace }`.
The function's own parameter destructuring reads only five of these fields. -/
structure MockArgs where
  destination : String
  startDate : String
  endDate : String
  travelers : Nat
  interests : List String
  budgetLevel : String
  pace : String
deriving DecidableEq, Repr

/-- The object returned by `buildMockPlan`. -/
structure MockPlan where
  destination : String
  startDate : String
  endDate : String
  days : List DayPlan
  budgetLevel : String
  pace : String
deriving DecidableEq, Repr

/-- The `for (let d = new Date(s); d <= e; d.setDate(d.getDate() + 1))`
loop body of `enumerateDates`: from day `d` it pushes `fuel` consecutive
ISO date strings, advancing one civil day per iteration. -/
def enumLoop : Nat → Date → List String
  | 0, _ => []
  | fuel + 1, d => formatDateISO d :: enumLoop fuel (nextDay d)

/-- `enumerateDates(isoStart, isoEnd)`: the empty list when either date is
invalid (`isNaN`) or the end precedes the start; otherwise the ISO strings
of every day from start to end inclusive (the loop iterates
`e - s + 1` times, one push per day). -/
def enumerateDates (isoStart isoEnd : String) : List String :=
  match parseISODate isoStart, parseISODate isoEnd with
  | some s, some e =>
    if toDayNumber e < toDayNumber s then []
    else enumLoop (toDayNumber e - toDayNumber s + 1) s
  | _, _ => []

/-- JavaScript's `array.map((d, i) => f(i, d))`, with explicit index. -/
def mapWithIndex (f : Nat → α → β) : Nat → List α → List β
  | _, [] => []
  | i, x :: xs => f i x :: mapWithIndex f (i + 1) xs

/-- The per-day object literal inside `buildMockPlan`'s `.map` callback. -/
def mockDay (destination budgetLevel pace : String) (i : Nat) (d : String) : DayPlan :=
  { date := d
    title := s!"Day {i + 1} in {destination}"
    summary := s!"Highlights of {destination} tailored to {budgetLevel} budget and {pace} pace."
    morning := s!"08:30 – City stroll and landmark visit near central {destination}."
    afternoon := "13:00 – Museum/market in a nearby district; short transfer."
    evening := "18:30 – Sunset spot + riverside/old-town walk."
    foodSuggestions :=
      ["Local breakfast cafe near center",
       "Lunch at a well-rated casual spot",
       "Dinner at a popular local kitchen"]
    tips :=
      ["Buy transit pass/card to save time",
       "Prebook tickets for major attractions",
       "Carry cash card/UPI backup"] }

/-- `buildMockPlan`: the deterministic template itinerary.  Its parameter
destructuring binds only `destination`, `startDate`, `endDate`,
`budgetLevel` and `pace`; the `travelers` and `interests` fields of the
argument object are never read. -/
def buildMockPlan (a : MockArgs) : MockPlan :=
  { destination := a.destination
    startDate := a.startDate
    endDate := a.endDate
    days := mapWithIndex (mockDay a.destination a.budgetLevel a.pace) 0
      (enumerateDates a.startDate a.endDate)
    budgetLevel := a.budgetLevel
    pace := a.pace }

/-- A JavaScript value as produced by `JSON.parse`: what the gemini branch
may spread into its response object.  Numbers are modelled as integers; the
program performs no numeric computation on them. -/
inductive Json where
  | null
  | bool (b : Bool)
  | num (n : Int)
  | str (s : String)
  | arr (elems : List Json)
  | obj (fields : List (String × Json))
deriving Inhabited

/-- Property lookup on an object's field list, first match wins (`JSON.parse`
produces unique keys). -/
def lookupField : List (String × Json) → String → Option Json
  | [], _ => none
  | (k, v) :: rest, key => if k == key then some v else lookupField rest key

/-- JavaScript property access `j.key`: `none` is `undefined`. -/
def getField (j : Json) (key : String) : Option Json :=
  match j with
  | .obj fields => lookupField fields key
  | _ => none

/-- JavaScript falsiness of a parsed JSON value, for the `!data` test. -/
def jsFalsy (j : Json) : Bool :=
  match j with
  | .null => true
  | .bool b => !b
  | .num n => n == 0
  | .str s => s == ""
  | _ => false

/-- The test `Array.isArray(data.days)`. -/
def hasDaysArray (j : Json) : Bool :=
  match getField j "days" with
  | some (.arr _) => true
  | _ => false

/-- The own enumerable fields contributed by `...j` in an object literal
(only objects reach the spread in this program; other values contribute
nothing of relevance). -/
def spreadFields (j : Json) : List (String × Json) :=
  match j with
  | .obj fields => fields
  | _ => []

/-- Assignment of one key during object-literal construction: overwrite in
place when the key exists, append otherwise. -/
def setKey : List (String × Json) → String → Json → List (String × Json)
  | [], k, v => [(k, v)]
  | (k', v') :: rest, k, v =>
    if k' == k then (k, v) :: rest else (k', v') :: setKey rest k v

/-- JavaScript object-literal construction `\x7b base..., ...extra \x7d`:
the spread entries are assigned left to right, later ones overriding. -/
def objExtend (base : List (String × Json)) : List (String × Json) → List (String × Json)
  | [] => base
  | (k, v) :: rest => objExtend (setKey base k v) rest

/-- JSON rendering of a string list, as `res.json` serialises it. -/
def strArr (l : List String) : Json :=
  .arr (l.map .str)

/-- JSON rendering of a `DayPlan` object. -/
def dayPlanJson (d : DayPlan) : Json :=
  .obj [("date", .str d.date), ("title", .str d.title), ("summary", .str d.summary),
    ("morning", .str d.morning), ("afternoon", .str d.afternoon),
    ("evening", .str d.evening), ("foodSuggestions", strArr d.foodSuggestions),
    ("tips", strArr d.tips)]

/-- The own enumerable fields of the object `buildMockPlan` returns, in
insertion order, as spread by `...mock`. -/
def mockPlanFields (p : MockPlan) : List (String × Json) :=
  [("destination", .str p.destination), ("startDate", .str p.startDate),
   ("endDate", .str p.endDate), ("days", .arr (p.days.map dayPlanJson)),
   ("budgetLevel", .str p.budgetLevel), ("pace", .str p.pace)]

/-- The JSON body of a `POST /api/plan` request; `none` is an absent
property.  Fields carry the types the request contract prescribes. -/
structure ReqBody where
  destination : Option String := none
  startDate : Option String := none
  endDate : Option String := none
  travelers : Option Nat := none
  interests : Option (List String) := none
  budgetLevel : Option String := none
  pace : Option String := none
  extras : Option String := none

/-- JavaScript truthiness of an optional string property: `undefined` and
the empty string are falsy. -/
def truthyStr : Option String → Bool
  | none => false
  | some s => !(s == "")

/-- The `validate(body)` input guard: pushes `"<k> is required"` for each
non-truthy required field, in order, then — only when both date fields are
truthy — `"Invalid date range"` when either fails to parse (`isNaN`) or the
end precedes the start. -/
def validate (body : ReqBody) : List String :=
  (if truthyStr body.destination then [] else ["destination is required"]) ++
  (if truthyStr body.startDate then [] else ["startDate is required"]) ++
  (if truthyStr body.endDate then [] else ["endDate is required"]) ++
  (if truthyStr body.startDate && truthyStr body.endDate then
    match parseISODate (body.startDate.getD ""), parseISODate (body.endDate.getD "") with
    | some s, some e =>
      if toDayNumber e < toDayNumber s then ["Invalid date range"] else []
    | _, _ => ["Invalid date range"]
  else [])

/-- Outcome of the awaited `model.generateContent(...)` call: it either
throws (recorded by the thrown error's message text) or yields response
text. -/
inductive GenResult where
  | raises (msg : String)
  | returns (text : String)

/-- The ambient world of one request: the `GEMINI_API_KEY` value, the
behaviour of the external generation call, and the host's `JSON.parse`
(an opaque collaborator; `none` models the parse exception that
`safeParseJSON` turns into `null`). -/
structure Env where
  apiKey : Option String
  gen : GenResult
  jsonParse : String → Option Json

/-- `result?.response?.text?.() || '\x7b\x7d'`: a falsy (empty) text is
replaced by the text of an empty JSON object. -/
def effectiveText (t : String) : String :=
  if t == "" then "\x7b\x7d" else t

/-- An HTTP response: the status set on `res` plus the object serialised by
`res.json(...)`. -/
structure HttpResponse where
  status : Nat
  body : Json

/-- A 200 response `res.json(\x7b ok: true, source: tag, ...rest \x7d)`,
with spread-override semantics. -/
def okResponse (tag : String) (rest : List (String × Json)) : HttpResponse :=
  ⟨200, .obj (objExtend [("ok", .bool true), ("source", .str tag)] rest)⟩

/-- The destructuring block of the handler,
`const \x7b destination, startDate, endDate, travelers = 1, interests = [],
budgetLevel = 'medium', pace = 'balanced', extras = '' \x7d = req.body`,
bundled as the argument object later passed to `buildMockPlan`.  A required
field is non-`none` whenever validation passed, so its `getD` default is
never observed. -/
def argsOf (req : ReqBody) : MockArgs :=
  { destination := req.destination.getD ""
    startDate := req.startDate.getD ""
    endDate := req.endDate.getD ""
    travelers := req.travelers.getD 1
    interests := req.interests.getD []
    budgetLevel := req.budgetLevel.getD "medium"
    pace := req.pace.getD "balanced" }

/-- The `POST /api/plan` handler, returning the HTTP response paired with
the `console.error` lines produced.  The prompt string sent to the model is
not observable in the response and is not modelled.  The catch branch logs
`'AI error:'` with `err?.message || err`; the thrown error is modelled by
its message text. -/
def planHandler (env : Env) (req : ReqBody) : HttpResponse × List String :=
  let errors := validate req
  if errors.isEmpty = false then
    (⟨400, .obj [("ok", .bool false), ("errors", strArr errors)]⟩, [])
  else
    let args : MockArgs := argsOf req
    if truthyStr env.apiKey = false then
      (okResponse "mock" (mockPlanFields (buildMockPlan args)), [])
    else
      match env.gen with
      | .raises msg =>
        (okResponse "error-mock" (mockPlanFields (buildMockPlan args)),
         ["AI error: " ++ msg])
      | .returns text =>
        match env.jsonParse (effectiveText text) with
        | none =>
          (okResponse "fallback-mock" (mockPlanFields (buildMockPlan args)), [])
        | some data =>
          if jsFalsy data || !(hasDaysArray data) then
            (okResponse "fallback-mock" (mockPlanFields (buildMockPlan args)), [])
          else
            (okResponse "gemini" (spreadFields data), [])

/-- The fallback test of the parse step,
`!data || !Array.isArray(data.days)` together with the `null` that
`safeParseJSON` returns on a parse exception. -/
def unusableData : Option Json → Bool
  | none => true
  | some data => jsFalsy data || !(hasDaysArray data)

/-- The environments in which the handler serves a template-generated
(`buildMockPlan`) payload: no credential, a throwing generation call, or
generation output that fails the parse/shape test. -/
def takesMockBranch (env : Env) : Prop :=
  truthyStr env.apiKey = false ∨
  (∃ msg, env.gen = GenResult.raises msg) ∨
  (∃ text, env.gen = GenResult.returns text ∧
    unusableData (env.jsonParse (effectiveText text)) = true)

/-- The `date` property of one serialised entry of a response's `days`
array, when it is a string. -/
def itemDateStr (j : Json) : Option String :=
  match getField j "date" with
  | some (.str s) => some s
  | _ => none

/-- The linear day number encoded by an entry's `date` string, when that
string parses as a calendar date. -/
def itemDay (j : Json) : Option Nat :=
  match itemDateStr j with
  | some s => (parseISODate s).map toDayNumber
  | none => none

/-- The specification's day-list invariant for a serialised `days` array:
one entry per calendar day from day number `s` to day number `e`
inclusive, contiguous, gapless and ascending — the entry at index `i`
carries the date of day `s + i`. -/
def daysListInvariant (items : List Json) (s e : Nat) : Prop :=
  items.length = e - s + 1 ∧
  ∀ i, i < items.length → (items[i]?.bind itemDay) = some (s + i)

/-- A well-formed two-day request, used as a concrete probe. -/
def reqParis : ReqBody :=
  { destination := some "Paris", startDate := some "2025-06-01",
    endDate := some "2025-06-02" }

/-- A request with every required field absent. -/
def reqMissingAll : ReqBody := {}

/-- A request whose required fields are present but empty strings. -/
def reqEmptyFields : ReqBody :=
  { destination := some "", startDate := some "", endDate := some "" }

/-- A request with no `startDate` and an unparseable `endDate`. -/
def reqNoStart : ReqBody :=
  { destination := some "Paris", endDate := some "notadate" }

/-- A request whose dates are presented in reversed order. -/
def reqReversed : ReqBody :=
  { destination := some "Paris", startDate := some "2025-05-10",
    endDate := some "2025-05-05" }

/-- A world with no `GEMINI_API_KEY` configured. -/
def envNoKey : Env := ⟨none, GenResult.returns "", fun _ => none⟩

/-- A world whose generation call throws. -/
def envRaises : Env := ⟨some "key", GenResult.raises "boom", fun _ => none⟩

/-- A world whose generation call yields text that parses to an object
carrying an empty `days` array. -/
def envBadDays : Env :=
  ⟨some "key", GenResult.returns "whatever", fun _ => some (.obj [("days", .arr [])])⟩

/-- A concrete template-generator argument object for a two-day Paris trip. -/
def mockArgsParis : MockArgs :=
  ⟨"Paris", "2025-06-01", "2025-06-02", 2, ["food"], "medium", "balanced"⟩

/-- The same trip as `mockArgsParis` with different `travelers` and
`interests`. -/
def mockArgsParisAlt : MockArgs :=
  ⟨"Paris", "2025-06-01", "2025-06-02", 5, ["museums", "hikes"], "medium", "balanced"⟩

/-- A template-generator argument object whose start date cannot be parsed. -/
def badArgs : MockArgs :=
  ⟨"X", "nope", "2025-01-01", 1, [], "medium", "balanced"⟩

/-- A request whose start date is present but unparseable. -/
def reqBadStart : ReqBody :=
  { destination := some "Paris", startDate := some "garbage-xx",
    endDate := some "2025-06-01" }

theorem monthLen_le (leap : Bool) (m : Nat) : monthLen leap m ≤ 31 := by
  unfold monthLen
  split <;> (try split) <;> omega

theorem validDate_mk (y m dd : Nat) :
    validDate ⟨y, m, dd⟩ ↔ 1 ≤ m ∧ m ≤ 12 ∧ 1 ≤ dd ∧ dd ≤ monthLen (isLeap y) m :=
  Iff.rfl

theorem toDayNumber_mk (y m dd : Nat) :
    toDayNumber ⟨y, m, dd⟩ = daysBeforeYear y + cumDays (isLeap y) m + (dd - 1) :=
  rfl

theorem monthLen_pos (leap : Bool) (m : Nat) (h1 : 1 ≤ m) (h2 : m ≤ 12) :
    1 ≤ monthLen leap m := by
  interval_cases m <;> cases leap <;> decide

theorem cumDays_succ (leap : Bool) (m : Nat) (h1 : 1 ≤ m) (h2 : m ≤ 12) :
    cumDays leap (m + 1) = cumDays leap m + monthLen leap m := by
  interval_cases m <;> cases leap <;> decide

theorem daysBeforeYear_succ_true (y : Nat) (hil : isLeap y = true) :
    daysBeforeYear (y + 1) = daysBeforeYear y + 366 := by
  unfold isLeap at hil
  unfold daysBeforeYear leapCount
  simp only [Bool.and_eq_true, beq_iff_eq, bne_iff_ne, ne_eq, Bool.or_eq_true] at hil
  omega

theorem daysBeforeYear_succ_false (y : Nat) (hil : isLeap y = false) :
    daysBeforeYear (y + 1) = daysBeforeYear y + 365 := by
  unfold isLeap at hil
  unfold daysBeforeYear leapCount
  simp only [Bool.and_eq_false_iff, Bool.or_eq_false_iff, bne_eq_false_iff_eq,
    beq_eq_false_iff_ne, ne_eq, Bool.not_eq_true] at hil
  rcases hil with h | ⟨h1, h2⟩ <;> omega

theorem daysBeforeYear_succ (y : Nat) :
    daysBeforeYear (y + 1) = daysBeforeYear y + (if isLeap y then 366 else 365) := by
  cases hil : isLeap y
  · rw [if_neg (by simp [hil])]
    exact daysBeforeYear_succ_false y hil
  · rw [if_pos (by simp [hil])]
    exact daysBeforeYear_succ_true y hil

theorem nextDay_mk (y m dd : Nat) :
    nextDay ⟨y, m, dd⟩ =
      if dd < monthLen (isLeap y) m then ⟨y, m, dd + 1⟩
      else if m < 12 then ⟨y, m + 1, 1⟩
      else ⟨y + 1, 1, 1⟩ :=
  rfl

theorem toDayNumber_nextDay (d : Date) (hv : validDate d) :
    toDayNumber (nextDay d) = toDayNumber d + 1 := by
  obtain ⟨y, m, dd⟩ := d
  rw [validDate_mk] at hv
  obtain ⟨hm1, hm2, hd1, hd2⟩ := hv
  rw [nextDay_mk]
  by_cases h1 : dd < monthLen (isLeap y) m
  · simp only [if_pos h1, toDayNumber_mk]
    omega
  · by_cases h2 : m < 12
    · simp only [if_neg h1, if_pos h2, toDayNumber_mk]
      have hc := cumDays_succ (isLeap y) m hm1 hm2
      omega
    · have hm : m = 12 := by omega
      subst hm
      have hdd : dd = 31 := by
        simp only [monthLen] at h1 hd2
        omega
      subst hdd
      simp only [if_neg h1, if_neg h2, toDayNumber_mk, daysBeforeYear_succ]
      cases hiso : isLeap y <;> simp [cumDays, hiso]

theorem validDate_nextDay (d : Date) (hv : validDate d) : validDate (nextDay d) := by
  obtain ⟨y, m, dd⟩ := d
  rw [validDate_mk] at hv
  obtain ⟨hm1, hm2, hd1, hd2⟩ := hv
  rw [nextDay_mk]
  by_cases h1 : dd < monthLen (isLeap y) m
  · rw [if_pos h1, validDate_mk]
    exact ⟨hm1, hm2, by omega, by omega⟩
  · by_cases h2 : m < 12
    · rw [if_neg h1, if_pos h2, validDate_mk]
      exact ⟨by omega, by omega, le_refl 1,
        monthLen_pos (isLeap y) (m + 1) (by omega) (by omega)⟩
    · rw [if_neg h1, if_neg h2, validDate_mk]
      exact ⟨le_refl 1, by omega, le_refl 1,
        monthLen_pos (isLeap (y + 1)) 1 (by omega) (by omega)⟩

theorem validDate_iterDays (n : Nat) (d : Date) (hv : validDate d) :
    validDate (iterDays n d) := by
  induction n generalizing d with
  | zero => exact hv
  | succ k ih => exact ih (nextDay d) (validDate_nextDay d hv)

theorem toDayNumber_iterDays (n : Nat) (d : Date) (hv : validDate d) :
    toDayNumber (iterDays n d) = toDayNumber d + n := by
  induction n generalizing d with
  | zero => rfl
  | succ k ih =>
    have := ih (nextDay d) (validDate_nextDay d hv)
    simp only [iterDays] at *
    rw [this, toDayNumber_nextDay d hv]
    omega

theorem iterDays_succ_out (n : Nat) (d : Date) :
    iterDays (n + 1) d = nextDay (iterDays n d) := by
  induction n generalizing d with
  | zero => rfl
  | succ k ih =>
    simp only [iterDays] at *
    exact ih (nextDay d)

theorem daysBeforeYear_mono {y y' : Nat} (h : y ≤ y') :
    daysBeforeYear y ≤ daysBeforeYear y' := by
  induction y' with
  | zero => simp_all
  | succ k ih =>
    rcases Nat.lt_or_ge y (k + 1) with hlt | hge
    · calc daysBeforeYear y ≤ daysBeforeYear k := ih (by omega)
        _ ≤ daysBeforeYear (k + 1) := by rw [daysBeforeYear_succ]; split <;> omega
    · have : y = k + 1 := by omega
      simp [this]

theorem toDayNumber_lt_next_year (d : Date) (hv : validDate d) :
    toDayNumber d < daysBeforeYear (d.year + 1) := by
  obtain ⟨y, m, dd⟩ := d
  rw [validDate_mk] at hv
  obtain ⟨hm1, hm2, hd1, hd2⟩ := hv
  show toDayNumber ⟨y, m, dd⟩ < daysBeforeYear (y + 1)
  rw [toDayNumber_mk]
  cases hiso : isLeap y
  · rw [daysBeforeYear_succ_false y hiso]
    rw [hiso] at hd2
    have : cumDays false m + dd ≤ 365 := by
      interval_cases m <;> simp [cumDays, monthLen] at hd2 ⊢ <;> omega
    omega
  · rw [daysBeforeYear_succ_true y hiso]
    rw [hiso] at hd2
    have : cumDays true m + dd ≤ 366 := by
      interval_cases m <;> simp [cumDays, monthLen] at hd2 ⊢ <;> omega
    omega

theorem year_lt_dayNumber_lt (d e : Date) (hv : validDate d) (h : d.year < e.year) :
    toDayNumber d < toDayNumber e := by
  have h1 := toDayNumber_lt_next_year d hv
  have h2 : daysBeforeYear (d.year + 1) ≤ daysBeforeYear e.year :=
    daysBeforeYear_mono (by omega)
  have h3 : daysBeforeYear e.year ≤ toDayNumber e := by
    unfold toDayNumber; omega
  omega

theorem digitVal_digitChar (n : Nat) : digitVal? (digitChar n) = some (n % 10) := by
  unfold digitChar
  have h : n % 10 < 10 := Nat.mod_lt _ (by omega)
  revert h
  generalize n % 10 = k
  intro h
  interval_cases k <;> rfl

theorem digitVal_inv {c : Char} {v : Nat} (h : digitVal? c = some v) :
    digitChar v = c ∧ v ≤ 9 := by
  unfold digitVal? at h
  split at h <;>
    first
      | (injection h with h; subst h; exact ⟨rfl, by omega⟩)
      | (cases h)

theorem digitChar_congr {m n : Nat} (h : m % 10 = n % 10) :
    digitChar m = digitChar n := by
  unfold digitChar
  rw [h]

theorem parseISODate_formatDateISO (d : Date) (hv : validDate d) (hy : d.year ≤ 9999) :
    parseISODate (formatDateISO d) = some d := by
  obtain ⟨y, m, dd⟩ := d
  rw [validDate_mk] at hv
  obtain ⟨hm1, hm2, hd1, hd2⟩ := hv
  have hy' : y ≤ 9999 := hy
  have hdle : dd ≤ 31 := le_trans hd2 (monthLen_le _ _)
  show parseISODate ⟨[digitChar (y / 1000), digitChar (y / 100), digitChar (y / 10),
    digitChar y, '-', digitChar (m / 10), digitChar m, '-',
    digitChar (dd / 10), digitChar dd]⟩ = some ⟨y, m, dd⟩
  simp only [parseISODate, digitVal_digitChar, Option.some_bind]
  have hY : y / 1000 % 10 * 1000 + y / 100 % 10 * 100 + y / 10 % 10 * 10 + y % 10 = y := by
    omega
  have hM : m / 10 % 10 * 10 + m % 10 = m := by omega
  have hD : dd / 10 % 10 * 10 + dd % 10 = dd := by omega
  simp only [hY, hM, hD]
  rw [if_pos ⟨hm1, hm2, hd1, hd2⟩]

theorem formatDateISO_parseISODate {s : String} {d : Date}
    (h : parseISODate s = some d) :
    formatDateISO d = s ∧ validDate d ∧ d.year ≤ 9999 := by
  obtain ⟨cs⟩ := s
  unfold parseISODate at h
  split at h
  next y1 y2 y3 y4 m1 m2 d1 d2 heq =>
    simp only [Option.bind_eq_some] at h
    obtain ⟨a, ha, b, hb, c, hc, dv, hd, e, he, f, hf, g, hg, hh, hhh, h⟩ := h
    split at h
    next hcond =>
      injection h with h
      subst h
      obtain ⟨hya, ha9⟩ := digitVal_inv ha
      obtain ⟨hyb, hb9⟩ := digitVal_inv hb
      obtain ⟨hyc, hc9⟩ := digitVal_inv hc
      obtain ⟨hyd, hd9⟩ := digitVal_inv hd
      obtain ⟨hye, he9⟩ := digitVal_inv he
      obtain ⟨hyf, hf9⟩ := digitVal_inv hf
      obtain ⟨hyg, hg9⟩ := digitVal_inv hg
      obtain ⟨hyh, hh9⟩ := digitVal_inv hhh
      have hdata : cs = [y1, y2, y3, y4, '-', m1, m2, '-', d1, d2] := by
        simpa using heq
      subst hdata
      refine ⟨?_, hcond, by show a * 1000 + b * 100 + c * 10 + dv ≤ 9999; omega⟩
      show String.mk
        [digitChar ((a * 1000 + b * 100 + c * 10 + dv) / 1000),
         digitChar ((a * 1000 + b * 100 + c * 10 + dv) / 100),
         digitChar ((a * 1000 + b * 100 + c * 10 + dv) / 10),
         digitChar (a * 1000 + b * 100 + c * 10 + dv), '-',
         digitChar ((e * 10 + f) / 10), digitChar (e * 10 + f), '-',
         digitChar ((g * 10 + hh) / 10), digitChar (g * 10 + hh)] =
        String.mk [y1, y2, y3, y4, '-', m1, m2, '-', d1, d2]
      have c1 : digitChar ((a * 1000 + b * 100 + c * 10 + dv) / 1000) = y1 := by
        rw [digitChar_congr (show (a * 1000 + b * 100 + c * 10 + dv) / 1000 % 10 = a % 10 by
          omega)]
        exact hya
      have c2 : digitChar ((a * 1000 + b * 100 + c * 10 + dv) / 100) = y2 := by
        rw [digitChar_congr (show (a * 1000 + b * 100 + c * 10 + dv) / 100 % 10 = b % 10 by
          omega)]
        exact hyb
      have c3 : digitChar ((a * 1000 + b * 100 + c * 10 + dv) / 10) = y3 := by
        rw [digitChar_congr (show (a * 1000 + b * 100 + c * 10 + dv) / 10 % 10 = c % 10 by
          omega)]
        exact hyc
      have c4 : digitChar (a * 1000 + b * 100 + c * 10 + dv) = y4 := by
        rw [digitChar_congr (show (a * 1000 + b * 100 + c * 10 + dv) % 10 = dv % 10 by
          omega)]
        exact hyd
      have c5 : digitChar ((e * 10 + f) / 10) = m1 := by
        rw [digitChar_congr (show (e * 10 + f) / 10 % 10 = e % 10 by omega)]
        exact hye
      have c6 : digitChar (e * 10 + f) = m2 := by
        rw [digitChar_congr (show (e * 10 + f) % 10 = f % 10 by omega)]
        exact hyf
      have c7 : digitChar ((g * 10 + hh) / 10) = d1 := by
        rw [digitChar_congr (show (g * 10 + hh) / 10 % 10 = g % 10 by omega)]
        exact hyg
      have c8 : digitChar (g * 10 + hh) = d2 := by
        rw [digitChar_congr (show (g * 10 + hh) % 10 = hh % 10 by omega)]
        exact hyh
      rw [c1, c2, c3, c4, c5, c6, c7, c8]
    next => cases h
  next => cases h

theorem iterDays_year_le (sd ed : Date) (hvs : validDate sd) (hve : validDate ed)
    (hye : ed.year ≤ 9999) (i : Nat) (hle : toDayNumber sd + i ≤ toDayNumber ed) :
    (iterDays i sd).year ≤ 9999 := by
  by_contra hgt
  have h1 : ed.year < (iterDays i sd).year := by omega
  have h2 := year_lt_dayNumber_lt ed (iterDays i sd) hve h1
  have h3 := toDayNumber_iterDays i sd hvs
  omega

theorem enumLoop_length (n : Nat) (d : Date) : (enumLoop n d).length = n := by
  induction n generalizing d with
  | zero => rfl
  | succ k ih => simp [enumLoop, ih]

theorem enumLoop_getElem? (n : Nat) (d : Date) (i : Nat) (h : i < n) :
    (enumLoop n d)[i]? = some (formatDateISO (iterDays i d)) := by
  induction n generalizing d i with
  | zero => omega
  | succ k ih =>
    cases i with
    | zero => simp [enumLoop, iterDays]
    | succ j =>
      simp only [enumLoop, List.getElem?_cons_succ]
      exact ih (nextDay d) j (by omega)

theorem mapWithIndex_length (f : Nat → α → β) (j : Nat) (l : List α) :
    (mapWithIndex f j l).length = l.length := by
  induction l generalizing j with
  | nil => rfl
  | cons x xs ih => simp [mapWithIndex, ih]

theorem mapWithIndex_getElem? (f : Nat → α → β) (j : Nat) (l : List α) (i : Nat) :
    (mapWithIndex f j l)[i]? = (l[i]?).map (f (j + i)) := by
  induction l generalizing j i with
  | nil => simp [mapWithIndex]
  | cons x xs ih =>
    cases i with
    | zero => simp [mapWithIndex]
    | succ n =>
      simp only [mapWithIndex, List.getElem?_cons_succ]
      rw [ih (j + 1) n]
      have harith : j + 1 + n = j + (n + 1) := by omega
      rw [harith]

theorem enumerateDates_eq {s e : String} {sd ed : Date}
    (hs : parseISODate s = some sd) (he : parseISODate e = some ed)
    (hle : toDayNumber sd ≤ toDayNumber ed) :
    enumerateDates s e = enumLoop (toDayNumber ed - toDayNumber sd + 1) sd := by
  unfold enumerateDates
  rw [hs, he]
  show (if toDayNumber ed < toDayNumber sd then []
    else enumLoop (toDayNumber ed - toDayNumber sd + 1) sd) = _
  rw [if_neg (by omega)]

theorem buildMockPlan_days (a : MockArgs) :
    (buildMockPlan a).days =
      mapWithIndex (mockDay a.destination a.budgetLevel a.pace) 0
        (enumerateDates a.startDate a.endDate) :=
  rfl

theorem mock_days_spec (a : MockArgs) (sd ed : Date)
    (hs : parseISODate a.startDate = some sd)
    (he : parseISODate a.endDate = some ed)
    (hle : toDayNumber sd ≤ toDayNumber ed) :
    (buildMockPlan a).days.length = toDayNumber ed - toDayNumber sd + 1 ∧
    ∀ i, i < toDayNumber ed - toDayNumber sd + 1 →
      (buildMockPlan a).days[i]? =
        some (mockDay a.destination a.budgetLevel a.pace i
          (formatDateISO (iterDays i sd))) ∧
      parseISODate (formatDateISO (iterDays i sd)) = some (iterDays i sd) ∧
      toDayNumber (iterDays i sd) = toDayNumber sd + i := by
  obtain ⟨hfs, hvs, hys⟩ := formatDateISO_parseISODate hs
  obtain ⟨hfe, hve, hye⟩ := formatDateISO_parseISODate he
  have hdays := buildMockPlan_days a
  have henum := enumerateDates_eq hs he hle
  constructor
  · rw [hdays, henum, mapWithIndex_length, enumLoop_length]
  · intro i hi
    refine ⟨?_, ?_, toDayNumber_iterDays i sd hvs⟩
    · rw [hdays, henum, mapWithIndex_getElem?, enumLoop_getElem? _ _ _ hi]
      simp
    · have hvi := validDate_iterDays i sd hvs
      have hbound : toDayNumber sd + i ≤ toDayNumber ed := by
        have := toDayNumber_iterDays i sd hvs
        omega
      exact parseISODate_formatDateISO _ hvi
        (iterDays_year_le sd ed hvs hve hye i hbound)

theorem validate_nil_inv (req : ReqBody) (h : validate req = []) :
    truthyStr req.destination = true ∧ truthyStr req.startDate = true ∧
    truthyStr req.endDate = true ∧
    ∃ sd ed, parseISODate (req.startDate.getD "") = some sd ∧
      parseISODate (req.endDate.getD "") = some ed ∧
      toDayNumber sd ≤ toDayNumber ed := by
  unfold validate at h
  simp only [List.append_eq_nil] at h
  obtain ⟨⟨⟨h1, h2⟩, h3⟩, h4⟩ := h
  have t1 : truthyStr req.destination = true := by
    rcases Bool.eq_false_or_eq_true (truthyStr req.destination) with htd | htd
    · exact htd
    · rw [htd] at h1
      simp at h1
  have t2 : truthyStr req.startDate = true := by
    rcases Bool.eq_false_or_eq_true (truthyStr req.startDate) with htd | htd
    · exact htd
    · rw [htd] at h2
      simp at h2
  have t3 : truthyStr req.endDate = true := by
    rcases Bool.eq_false_or_eq_true (truthyStr req.endDate) with htd | htd
    · exact htd
    · rw [htd] at h3
      simp at h3
  refine ⟨t1, t2, t3, ?_⟩
  have hcond : (truthyStr req.startDate && truthyStr req.endDate) = true := by
    rw [t2, t3]
    rfl
  rw [if_pos hcond] at h4
  cases hp : parseISODate (req.startDate.getD "") with
  | none =>
    rw [hp] at h4
    cases hq : parseISODate (req.endDate.getD "") <;> rw [hq] at h4 <;> simp at h4
  | some sd =>
    cases hq : parseISODate (req.endDate.getD "") with
    | none =>
      rw [hp, hq] at h4
      simp at h4
    | some ed =>
      rw [hp, hq] at h4
      refine ⟨sd, ed, rfl, rfl, ?_⟩
      simp only [] at h4
      split at h4
      · simp at h4
      · omega

theorem lookupField_setKey_ne (l : List (String × Json)) (k k' : String) (v : Json)
    (h : k' ≠ k) : lookupField (setKey l k v) k' = lookupField l k' := by
  have hbeq : (k == k') = false := beq_eq_false_iff_ne.mpr (Ne.symm h)
  induction l with
  | nil => simp [setKey, lookupField, hbeq]
  | cons p rest ih =>
    obtain ⟨pk, pv⟩ := p
    by_cases hpk : pk = k
    · subst hpk
      simp only [setKey, beq_self_eq_true, if_true, lookupField, hbeq,
        Bool.false_eq_true, if_false]
    · have hpkb : (pk == k) = false := beq_eq_false_iff_ne.mpr hpk
      simp only [setKey, hpkb, Bool.false_eq_true, if_false, lookupField]
      rw [ih]

theorem lookupField_none_keys (l : List (String × Json)) (key : String)
    (h : lookupField l key = none) : ∀ p ∈ l, p.1 ≠ key := by
  induction l with
  | nil => intro p hp; cases hp
  | cons q rest ih =>
    obtain ⟨qk, qv⟩ := q
    intro p hp
    rcases List.mem_cons.mp hp with heq | hmem
    · subst heq
      intro hk
      have hk' : qk = key := hk
      simp only [lookupField] at h
      rw [hk'] at h
      simp at h
    · refine ih ?_ p hmem
      simp only [lookupField] at h
      cases hqk : (qk == key) <;> rw [hqk] at h
      · exact h
      · simp at h

theorem lookupField_objExtend_notin (extra base : List (String × Json)) (key : String)
    (h : ∀ p ∈ extra, p.1 ≠ key) :
    lookupField (objExtend base extra) key = lookupField base key := by
  induction extra generalizing base with
  | nil => rfl
  | cons p rest ih =>
    obtain ⟨pk, pv⟩ := p
    show lookupField (objExtend (setKey base pk pv) rest) key = _
    rw [ih (setKey base pk pv) (fun q hq => h q (List.mem_cons_of_mem _ hq))]
    exact lookupField_setKey_ne base pk key pv
      (fun hk => h (pk, pv) (List.mem_cons_self _ _) hk.symm)

theorem okResponse_status (tag : String) (rest : List (String × Json)) :
    (okResponse tag rest).status = 200 :=
  rfl

theorem okResponse_mock_ok (tag : String) (p : MockPlan) :
    getField (okResponse tag (mockPlanFields p)).body "ok" = some (.bool true) :=
  rfl

theorem okResponse_mock_source (tag : String) (p : MockPlan) :
    getField (okResponse tag (mockPlanFields p)).body "source" = some (.str tag) :=
  rfl

theorem okResponse_mock_days (tag : String) (p : MockPlan) :
    getField (okResponse tag (mockPlanFields p)).body "days" =
      some (.arr (p.days.map dayPlanJson)) :=
  rfl

theorem okResponse_spread_source (tag : String) (data : Json)
    (hsrc : getField data "source" = none) :
    getField (okResponse tag (spreadFields data)).body "source" = some (.str tag) := by
  show lookupField
    (objExtend [("ok", .bool true), ("source", .str tag)] (spreadFields data))
    "source" = some (.str tag)
  rw [lookupField_objExtend_notin (spreadFields data) _ "source" ?keys]
  · rfl
  case keys =>
    cases data with
    | obj fields => exact lookupField_none_keys fields "source" hsrc
    | null => intro p hp; cases hp
    | bool b => intro p hp; cases hp
    | num n => intro p hp; cases hp
    | str s => intro p hp; cases hp
    | arr elems => intro p hp; cases hp

theorem planHandler_valid_noKey (env : Env) (req : ReqBody)
    (hval : validate req = []) (hkey : truthyStr env.apiKey = false) :
    planHandler env req =
      (okResponse "mock" (mockPlanFields (buildMockPlan (argsOf req))), []) := by
  simp [planHandler, hval, hkey]

theorem planHandler_valid_raises (env : Env) (req : ReqBody) (msg : String)
    (hval : validate req = []) (hkey : truthyStr env.apiKey = true)
    (hgen : env.gen = GenResult.raises msg) :
    planHandler env req =
      (okResponse "error-mock" (mockPlanFields (buildMockPlan (argsOf req))),
       ["AI error: " ++ msg]) := by
  simp [planHandler, hval, hkey, hgen]

theorem planHandler_valid_unusable (env : Env) (req : ReqBody) (text : String)
    (hval : validate req = []) (hkey : truthyStr env.apiKey = true)
    (hgen : env.gen = GenResult.returns text)
    (hun : unusableData (env.jsonParse (effectiveText text)) = true) :
    planHandler env req =
      (okResponse "fallback-mock" (mockPlanFields (buildMockPlan (argsOf req))),
       []) := by
  cases hp : env.jsonParse (effectiveText text) with
  | none => simp [planHandler, hval, hkey, hgen, hp]
  | some data =>
    rw [hp] at hun
    simp only [unusableData] at hun
    simp [planHandler, hval, hkey, hgen, hp, hun]

theorem planHandler_valid_usable (env : Env) (req : ReqBody) (text : String)
    (data : Json)
    (hval : validate req = []) (hkey : truthyStr env.apiKey = true)
    (hgen : env.gen = GenResult.returns text)
    (hp : env.jsonParse (effectiveText text) = some data)
    (hus : (jsFalsy data || !(hasDaysArray data)) = false) :
    planHandler env req = (okResponse "gemini" (spreadFields data), []) := by
  simp [planHandler, hval, hkey, hgen, hp, hus]

theorem itemDay_dayPlanJson (d : DayPlan) :
    itemDay (dayPlanJson d) = (parseISODate d.date).map toDayNumber :=
  rfl

/-- C1: for every request that passes validation, when the external
generation call raises, `POST /api/plan` still returns HTTP 200 with
`ok: true`: the error is caught, logged by message only, and the
template-generated (`buildMockPlan`) fallback payload is served instead of
propagating the failure to the caller. -/
theorem claim_C1 (env : Env) (req : ReqBody) (msg : String)
    (hval : validate req = []) (hkey : truthyStr env.apiKey = true)
    (hgen : env.gen = GenResult.raises msg) :
    (planHandler env req).1.status = 200 ∧
    getField (planHandler env req).1.body "ok" = some (.bool true) ∧
    getField (planHandler env req).1.body "days" =
      some (.arr ((buildMockPlan (argsOf req)).days.map dayPlanJson)) ∧
    (planHandler env req).2 = ["AI error: " ++ msg] := by
  rw [planHandler_valid_raises env req msg hval hkey hgen]
  exact ⟨okResponse_status _ _, okResponse_mock_ok _ _, okResponse_mock_days _ _, rfl⟩

/-- Witness for C1: a concrete raising world and valid request. -/
theorem claim_C1_witness :
    validate reqParis = [] ∧ truthyStr envRaises.apiKey = true ∧
    envRaises.gen = GenResult.raises "boom" ∧
    (planHandler envRaises reqParis).1.status = 200 ∧
    getField (planHandler envRaises reqParis).1.body "ok" = some (.bool true) ∧
    getField (planHandler envRaises reqParis).1.body "days" =
      some (.arr ((buildMockPlan (argsOf reqParis)).days.map dayPlanJson)) ∧
    (planHandler envRaises reqParis).2 = ["AI error: " ++ "boom"] := by
  have h := claim_C1 envRaises reqParis "boom" rfl rfl rfl
  exact ⟨rfl, rfl, rfl, h.1, h.2.1, h.2.2.1, h.2.2.2⟩

/-- C2 counterexample: on the no-credential path the response's `source`
field is the string `"mock"`, which is not one of the four tags
`generated` / `fallback-malformed` / `fallback-error` /
`fallback-no-credentials` that the claim enumerates. -/
theorem claim_C2_counterexample :
    getField (planHandler envNoKey reqParis).1.body "source" = some (.str "mock") ∧
    ("mock" : String) ∉ (["generated", "fallback-malformed", "fallback-error",
      "fallback-no-credentials"] : List String) := by
  exact ⟨rfl, by decide⟩

/-- C2 (amended): for every request that passes validation, provided the
parsed generation output never itself carries a `source` field (the
`\x7b ok: true, source: 'gemini', ...data \x7d` spread would override the
tag), the response's `source` is one of exactly
`mock` / `fallback-mock` / `gemini` / `error-mock`: `gemini` when the
output is truthy parseable JSON with an array field `days`, `mock` when no
credential is configured, `fallback-mock` when the text fails to parse, is
falsy, or lacks an array `days`, and `error-mock` when the call raises. -/
theorem claim_C2_amended (env : Env) (req : ReqBody)
    (hval : validate req = [])
    (hns : ∀ s j, env.jsonParse s = some j → getField j "source" = none) :
    ∃ tag, getField (planHandler env req).1.body "source" = some (.str tag) ∧
      tag ∈ (["mock", "fallback-mock", "error-mock", "gemini"] : List String) ∧
      (truthyStr env.apiKey = false → tag = "mock") ∧
      (∀ msg, truthyStr env.apiKey = true → env.gen = GenResult.raises msg →
        tag = "error-mock") ∧
      (∀ text, truthyStr env.apiKey = true → env.gen = GenResult.returns text →
        (unusableData (env.jsonParse (effectiveText text)) = true →
          tag = "fallback-mock") ∧
        (unusableData (env.jsonParse (effectiveText text)) = false →
          tag = "gemini")) := by
  by_cases hkey : truthyStr env.apiKey = true
  · cases hgen : env.gen with
    | raises msg =>
      rw [planHandler_valid_raises env req msg hval hkey hgen]
      refine ⟨"error-mock", okResponse_mock_source _ _, by decide, ?_, ?_, ?_⟩
      · intro hf
        rw [hkey] at hf
        cases hf
      · intro _ _ _
        rfl
      · intro text _ hg
        cases hg
    | returns text =>
      cases hun : unusableData (env.jsonParse (effectiveText text)) with
      | true =>
        rw [planHandler_valid_unusable env req text hval hkey hgen hun]
        refine ⟨"fallback-mock", okResponse_mock_source _ _, by decide, ?_, ?_, ?_⟩
        · intro hf
          rw [hkey] at hf
          cases hf
        · intro msg _ hg
          cases hg
        · intro text' _ hg
          injection hg with hg
          subst hg
          exact ⟨fun _ => rfl, fun hf => by rw [hun] at hf; cases hf⟩
      | false =>
        cases hp : env.jsonParse (effectiveText text) with
        | none =>
          rw [hp] at hun
          simp only [unusableData] at hun
          cases hun
        | some data =>
          rw [hp] at hun
          simp only [unusableData] at hun
          rw [planHandler_valid_usable env req text data hval hkey hgen hp hun]
          refine ⟨"gemini",
            okResponse_spread_source _ _ (hns (effectiveText text) data hp),
            by decide, ?_, ?_, ?_⟩
          · intro hf
            rw [hkey] at hf
            cases hf
          · intro msg _ hg
            cases hg
          · intro text' _ hg
            injection hg with hg
            subst hg
            refine ⟨fun hf => ?_, fun _ => rfl⟩
            rw [hp] at hf
            simp only [unusableData] at hf
            rw [hun] at hf
            cases hf
  · have hkeyf : truthyStr env.apiKey = false := by
      cases hb : truthyStr env.apiKey
      · rfl
      · exact absurd hb hkey
    rw [planHandler_valid_noKey env req hval hkeyf]
    refine ⟨"mock", okResponse_mock_source _ _, by decide, fun _ => rfl, ?_, ?_⟩
    · intro msg hk _
      rw [hkeyf] at hk
      cases hk
    · intro text hk _
      rw [hkeyf] at hk
      cases hk

/-- Witness for C2 (amended): the concrete no-credential world, whose
parse function never yields an object at all. -/
theorem claim_C2_amended_witness :
    validate reqParis = [] ∧
    (∃ tag,
      getField (planHandler envNoKey reqParis).1.body "source" = some (.str tag) ∧
      tag ∈ (["mock", "fallback-mock", "error-mock", "gemini"] : List String) ∧
      (truthyStr envNoKey.apiKey = false → tag = "mock") ∧
      (∀ msg, truthyStr envNoKey.apiKey = true →
        envNoKey.gen = GenResult.raises msg → tag = "error-mock") ∧
      (∀ text, truthyStr envNoKey.apiKey = true →
        envNoKey.gen = GenResult.returns text →
        (unusableData (envNoKey.jsonParse (effectiveText text)) = true →
          tag = "fallback-mock") ∧
        (unusableData (envNoKey.jsonParse (effectiveText text)) = false →
          tag = "gemini"))) := by
  refine ⟨rfl, claim_C2_amended envNoKey reqParis rfl ?_⟩
  intro s j hj
  simp only [envNoKey] at hj
  cases hj

/-- C3 counterexample: a generation output `\x7b "days": [] \x7d` passes
the shape test (`days` is an array), so for the two-day request the
response has `ok: true` yet its `days` array is empty — the day-count
invariant fails on the `generated` path, where the parsed output is
returned as-is. -/
theorem claim_C3_counterexample :
    (planHandler envBadDays reqParis).1.status = 200 ∧
    getField (planHandler envBadDays reqParis).1.body "ok" = some (.bool true) ∧
    getField (planHandler envBadDays reqParis).1.body "days" = some (.arr []) ∧
    parseISODate (reqParis.startDate.getD "") = some ⟨2025, 6, 1⟩ ∧
    parseISODate (reqParis.endDate.getD "") = some ⟨2025, 6, 2⟩ ∧
    toDayNumber ⟨2025, 6, 2⟩ - toDayNumber ⟨2025, 6, 1⟩ + 1 = 2 ∧
    ([] : List Json).length ≠ 2 := by
  exact ⟨rfl, rfl, rfl, rfl, rfl, by decide, by decide⟩

/-- C3 (amended): whenever `ok` is true and the served payload came from
the template generator — the no-credential, parse-failure/shape-failure
and raised-error branches — the `days` array has exactly one entry per
calendar day between `startDate` and `endDate` inclusive, contiguous,
gapless and sorted ascending by date.  On the `generated` branch the
parsed model output is returned as-is and the invariant is not enforced. -/
theorem claim_C3_amended (env : Env) (req : ReqBody) (sd ed : Date)
    (hval : validate req = [])
    (hs : parseISODate (req.startDate.getD "") = some sd)
    (he : parseISODate (req.endDate.getD "") = some ed)
    (hmock : takesMockBranch env) :
    ∃ items, (planHandler env req).1.status = 200 ∧
      getField (planHandler env req).1.body "ok" = some (.bool true) ∧
      getField (planHandler env req).1.body "days" = some (.arr items) ∧
      daysListInvariant items (toDayNumber sd) (toDayNumber ed) := by
  obtain ⟨t1, t2, t3, sd', ed', hp', hq', hle'⟩ := validate_nil_inv req hval
  rw [hp'] at hs
  rw [hq'] at he
  injection hs with hs
  injection he with he
  subst hs
  subst he
  have hresp : ∃ tag log, planHandler env req =
      (okResponse tag (mockPlanFields (buildMockPlan (argsOf req))), log) := by
    by_cases hkey : truthyStr env.apiKey = true
    · rcases hmock with hk | ⟨msg, hg⟩ | ⟨text, hg, hun⟩
      · rw [hk] at hkey
        cases hkey
      · exact ⟨"error-mock", _, planHandler_valid_raises env req msg hval hkey hg⟩
      · exact ⟨"fallback-mock", _,
          planHandler_valid_unusable env req text hval hkey hg hun⟩
    · have hkeyf : truthyStr env.apiKey = false := by
        cases hb : truthyStr env.apiKey
        · rfl
        · exact absurd hb hkey
      exact ⟨"mock", [], planHandler_valid_noKey env req hval hkeyf⟩
  obtain ⟨tag, log, hresp⟩ := hresp
  rw [hresp]
  refine ⟨(buildMockPlan (argsOf req)).days.map dayPlanJson,
    okResponse_status _ _, okResponse_mock_ok _ _, okResponse_mock_days _ _, ?_⟩
  obtain ⟨hlen, hspec⟩ := mock_days_spec (argsOf req) sd' ed' hp' hq' hle'
  constructor
  · rw [List.length_map, hlen]
  · intro i hi
    rw [List.length_map, hlen] at hi
    obtain ⟨hitem, hparse, hday⟩ := hspec i hi
    rw [List.getElem?_map, hitem]
    show ((parseISODate (formatDateISO (iterDays i sd'))).map toDayNumber) =
      some (toDayNumber sd' + i)
    rw [hparse]
    simp [hday]

/-- Witness for C3 (amended): the concrete no-credential world and the
two-day request. -/
theorem claim_C3_amended_witness :
    validate reqParis = [] ∧ takesMockBranch envNoKey ∧
    (∃ items, (planHandler envNoKey reqParis).1.status = 200 ∧
      getField (planHandler envNoKey reqParis).1.body "ok" = some (.bool true) ∧
      getField (planHandler envNoKey reqParis).1.body "days" = some (.arr items) ∧
      daysListInvariant items (toDayNumber ⟨2025, 6, 1⟩) (toDayNumber ⟨2025, 6, 2⟩)) := by
  refine ⟨rfl, Or.inl rfl, claim_C3_amended envNoKey reqParis ⟨2025, 6, 1⟩ ⟨2025, 6, 2⟩
    rfl rfl rfl (Or.inl rfl)⟩

/-- C4: for every request whose dates parse with end not before start, the
template generator produces exactly `(endDate - startDate in days) + 1`
entries; the entry at index `i` carries the ISO rendering of
`startDate + i` days (whose day number is `startDate`'s plus `i`), so the
sequence starts at `startDate` and ascends day by day. -/
theorem claim_C4 (a : MockArgs) (sd ed : Date)
    (hs : parseISODate a.startDate = some sd)
    (he : parseISODate a.endDate = some ed)
    (hle : toDayNumber sd ≤ toDayNumber ed) :
    (buildMockPlan a).days.length = (toDayNumber ed - toDayNumber sd) + 1 ∧
    (∀ i, i < (toDayNumber ed - toDayNumber sd) + 1 →
      ((buildMockPlan a).days[i]?.map (fun d => d.date)) =
        some (formatDateISO (iterDays i sd)) ∧
      parseISODate (formatDateISO (iterDays i sd)) = some (iterDays i sd) ∧
      toDayNumber (iterDays i sd) = toDayNumber sd + i) ∧
    ((buildMockPlan a).days[0]?.map (fun d => d.date)) = some a.startDate := by
  obtain ⟨hlen, hspec⟩ := mock_days_spec a sd ed hs he hle
  refine ⟨hlen, ?_, ?_⟩
  · intro i hi
    obtain ⟨hitem, hparse, hday⟩ := hspec i hi
    rw [hitem]
    exact ⟨rfl, hparse, hday⟩
  · obtain ⟨hitem, hparse, hday⟩ := hspec 0 (by omega)
    rw [hitem]
    obtain ⟨hfs, hvs, hys⟩ := formatDateISO_parseISODate hs
    show some (formatDateISO (iterDays 0 sd)) = some a.startDate
    rw [show iterDays 0 sd = sd from rfl, hfs]

/-- Witness for C4: the concrete two-day Paris arguments. -/
theorem claim_C4_witness :
    (buildMockPlan mockArgsParis).days.length =
      (toDayNumber ⟨2025, 6, 2⟩ - toDayNumber ⟨2025, 6, 1⟩) + 1 ∧
    ((buildMockPlan mockArgsParis).days[0]?.map (fun d => d.date)) =
      some "2025-06-01" := by
  have h := claim_C4 mockArgsParis ⟨2025, 6, 1⟩ ⟨2025, 6, 2⟩ rfl rfl (by decide)
  exact ⟨h.1, h.2.2⟩

/-- C5: validation applies its rules independently and collects every
violation: each absent required field contributes `"<field> is required"`
regardless of the other fields, and a non-empty error list makes the
endpoint answer HTTP 400 with `\x7b ok: false, errors \x7d` listing all
collected messages. -/
theorem claim_C5 (env : Env) (req : ReqBody) :
    (req.destination = none → "destination is required" ∈ validate req) ∧
    (req.startDate = none → "startDate is required" ∈ validate req) ∧
    (req.endDate = none → "endDate is required" ∈ validate req) ∧
    (validate req ≠ [] →
      (planHandler env req).1 =
        ⟨400, .obj [("ok", .bool false), ("errors", strArr (validate req))]⟩) := by
  refine ⟨?_, ?_, ?_, ?_⟩
  · intro hd
    simp [validate, hd, truthyStr]
  · intro hd
    simp [validate, hd, truthyStr]
  · intro hd
    simp [validate, hd, truthyStr]
  · intro hne
    have hemp : (validate req).isEmpty = false := by
      cases hv : validate req
      · exact absurd hv hne
      · rfl
    simp [planHandler, hemp]

/-- Witness for C5: the request missing all three required fields gets all
three messages and a 400 response carrying them. -/
theorem claim_C5_witness :
    ("destination is required" ∈ validate reqMissingAll) ∧
    ("startDate is required" ∈ validate reqMissingAll) ∧
    ("endDate is required" ∈ validate reqMissingAll) ∧
    (planHandler envNoKey reqMissingAll).1 =
      ⟨400, .obj [("ok", .bool false), ("errors", strArr (validate reqMissingAll))]⟩ := by
  obtain ⟨h1, h2, h3, h4⟩ := claim_C5 envNoKey reqMissingAll
  exact ⟨h1 rfl, h2 rfl, h3 rfl, h4 (by decide)⟩

/-- C6 counterexample: with `startDate` absent and an unparseable
`endDate`, validation yields only `"startDate is required"` — no
`"Invalid date range"` — because the date check runs only when both date
fields are truthy.  This refutes the claim that the parse check is
independent of field presence. -/
theorem claim_C6_counterexample :
    reqNoStart.startDate = none ∧
    parseISODate (reqNoStart.endDate.getD "") = none ∧
    validate reqNoStart = ["startDate is required"] ∧
    "Invalid date range" ∉ validate reqNoStart := by
  refine ⟨rfl, rfl, rfl, ?_⟩
  have h : validate reqNoStart = ["startDate is required"] := rfl
  rw [h]
  decide

/-- C6 (amended): when both `startDate` and `endDate` are present and
non-empty and either fails to parse as a calendar date, validation emits
`"Invalid date range"`; when either date field is absent or empty the
range check is skipped entirely. -/
theorem claim_C6_amended (req : ReqBody) (sv ev : String)
    (hs : req.startDate = some sv) (hsne : sv ≠ "")
    (he : req.endDate = some ev) (hene : ev ≠ "")
    (hbad : parseISODate sv = none ∨ parseISODate ev = none) :
    "Invalid date range" ∈ validate req := by
  rcases hbad with hb | hb
  · simp [validate, hs, he, truthyStr, hsne, hene, hb]
  · cases hp : parseISODate sv <;>
      simp [validate, hs, he, truthyStr, hsne, hene, hb, hp]

/-- Witness for C6 (amended): both dates present, start unparseable. -/
theorem claim_C6_amended_witness :
    "Invalid date range" ∈ validate reqBadStart :=
  claim_C6_amended reqBadStart "garbage-xx" "2025-06-01" rfl (by decide) rfl
    (by decide) (Or.inl rfl)

/-- C7: the template generator is total and degrades to an empty day list:
whenever either date fails to parse or the end precedes the start, it
returns a result whose `days` is the empty sequence. -/
theorem claim_C7 (a : MockArgs)
    (hdeg : parseISODate a.startDate = none ∨ parseISODate a.endDate = none ∨
      ∃ sd ed, parseISODate a.startDate = some sd ∧ parseISODate a.endDate = some ed ∧
        toDayNumber ed < toDayNumber sd) :
    (buildMockPlan a).days = [] := by
  have henum : enumerateDates a.startDate a.endDate = [] := by
    unfold enumerateDates
    rcases hdeg with hb | hb | ⟨sd, ed, hp, hq, hlt⟩
    · rw [hb]
    · cases hp : parseISODate a.startDate <;> rw [hb]
    · rw [hp, hq]
      show (if toDayNumber ed < toDayNumber sd then []
        else enumLoop (toDayNumber ed - toDayNumber sd + 1) sd) = []
      rw [if_pos hlt]
  rw [buildMockPlan_days, henum]
  rfl

/-- Witness for C7: arguments with an unparseable start date. -/
theorem claim_C7_witness : (buildMockPlan badArgs).days = [] :=
  claim_C7 badArgs (Or.inl rfl)

/-- C8: the template generator is idempotent and deterministic.  In this
embedding `buildMockPlan` is a pure function of its argument object — the
source reads no clock, randomness or other ambient state — so two calls on
the same request coincide, dates, entry count and fixed-pattern text
included. -/
theorem claim_C8 (a : MockArgs) :
    buildMockPlan a = buildMockPlan a ∧
    (buildMockPlan a).days.map (fun d => d.date) =
      (buildMockPlan a).days.map (fun d => d.date) ∧
    (buildMockPlan a).days.length = (buildMockPlan a).days.length :=
  ⟨rfl, rfl, rfl⟩

/-- C9: the template generator's output depends only on `destination`,
`startDate`, `endDate`, `budgetLevel` and `pace`: its parameter
destructuring never reads `travelers` or `interests`, so two argument
objects agreeing on those five fields produce identical itineraries. -/
theorem claim_C9 (a b : MockArgs) (h1 : a.destination = b.destination)
    (h2 : a.startDate = b.startDate) (h3 : a.endDate = b.endDate)
    (h4 : a.budgetLevel = b.budgetLevel) (h5 : a.pace = b.pace) :
    buildMockPlan a = buildMockPlan b := by
  unfold buildMockPlan
  rw [h1, h2, h3, h4, h5]

/-- Witness for C9: two Paris argument objects that differ in `travelers`
and `interests` yet generate the same itinerary. -/
theorem claim_C9_witness :
    mockArgsParis.travelers ≠ mockArgsParisAlt.travelers ∧
    mockArgsParis.interests ≠ mockArgsParisAlt.interests ∧
    buildMockPlan mockArgsParis = buildMockPlan mockArgsParisAlt :=
  ⟨by decide, by decide, claim_C9 mockArgsParis mockArgsParisAlt rfl rfl rfl rfl rfl⟩

/-- C10: validation treats an empty-string required field like an absent
one — `!body[k]` is true for `""` — so a present-but-empty `destination`,
`startDate` or `endDate` still contributes `"<field> is required"`. -/
theorem claim_C10 (req : ReqBody) :
    (req.destination = some "" → "destination is required" ∈ validate req) ∧
    (req.startDate = some "" → "startDate is required" ∈ validate req) ∧
    (req.endDate = some "" → "endDate is required" ∈ validate req) := by
  refine ⟨?_, ?_, ?_⟩ <;> intro hd <;> simp [validate, hd, truthyStr]

/-- Witness for C10: the request whose three required fields are empty
strings. -/
theorem claim_C10_witness :
    ("destination is required" ∈ validate reqEmptyFields) ∧
    ("startDate is required" ∈ validate reqEmptyFields) ∧
    ("endDate is required" ∈ validate reqEmptyFields) := by
  obtain ⟨h1, h2, h3⟩ := claim_C10 reqEmptyFields
  exact ⟨h1 rfl, h2 rfl, h3 rfl⟩

end TripPlanner
